import Mathlib

/-!
Verification of the finance-app server core (src/server/index.js, src/server/db.js).

The development shallowly embeds the server's core logic:
* the Telegram-style initData signature verification (`validateInitData`),
  over a bit-precise executable HMAC-SHA256;
* the game-state storage row and the three core operations — regen catch-up
  (`applyRegenRow`), tap (`tapUpdate` / `tapEndpoint`) and upgrade
  (`upgradeUpdate` / `upgradeEndpoint`) — with SQL NULL semantics made
  explicit via `Option`;
* a two-transaction interleaving machine for the upgrade endpoint's
  read-then-write sequence;
* the player-directory upsert (`ensurePlayer`) over a small relational model.

Numeric columns (Postgres NUMERIC) are modelled as `ℚ`; timestamps as `ℚ`
milliseconds (the code divides by 1000 to obtain seconds).  JavaScript value
coercions that the code relies on (`Number(null) = 0`, `x || d`, `safeNum`)
are modelled by the explicit helpers `jsNum`, `jsNumOr`, `safeNum`.
-/

set_option maxRecDepth 100000

/- ===== HMAC-SHA256 (crypto.createHmac("sha256", ...)) ===== -/

/-- Truncation to a 32-bit word. -/
def w32 (x : Nat) : Nat := x % 4294967296

/-- Rotation of a 32-bit word right by `n` (input assumed `< 2^32`). -/
def rotr32 (n x : Nat) : Nat := w32 ((x >>> n) ||| (x <<< (32 - n)))

/-- SHA-256 big Σ₀. -/
def bSig0 (x : Nat) : Nat := rotr32 2 x ^^^ rotr32 13 x ^^^ rotr32 22 x

/-- SHA-256 big Σ₁. -/
def bSig1 (x : Nat) : Nat := rotr32 6 x ^^^ rotr32 11 x ^^^ rotr32 25 x

/-- SHA-256 small σ₀. -/
def sSig0 (x : Nat) : Nat := rotr32 7 x ^^^ rotr32 18 x ^^^ (x >>> 3)

/-- SHA-256 small σ₁. -/
def sSig1 (x : Nat) : Nat := rotr32 17 x ^^^ rotr32 19 x ^^^ (x >>> 10)

/-- SHA-256 choice function. -/
def chf (x y z : Nat) : Nat := (x &&& y) ^^^ ((x ^^^ 4294967295) &&& z)

/-- SHA-256 majority function. -/
def majf (x y z : Nat) : Nat := (x &&& y) ^^^ (x &&& z) ^^^ (y &&& z)

/-- SHA-256 round constants. -/
def shaK : List Nat :=
  [1116352408, 1899447441, 3049323471, 3921009573, 961987163, 1508970993,
   2453635748, 2870763221, 3624381080, 310598401, 607225278, 1426881987,
   1925078388, 2162078206, 2614888103, 3248222580, 3835390401, 4022224774,
   264347078, 604807628, 770255983, 1249150122, 1555081692, 1996064986,
   2554220882, 2821834349, 2952996808, 3210313671, 3336571891, 3584528711,
   113926993, 338241895, 666307205, 773529912, 1294757372, 1396182291,
   1695183700, 1986661051, 2177026350, 2456956037, 2730485921, 2820302411,
   3259730800, 3345764771, 3516065817, 3600352804, 4094571909, 275423344,
   430227734, 506948616, 659060556, 883997877, 958139571, 1322822218,
   1537002063, 1747873779, 1955562222, 2024104815, 2227730452, 2361852424,
   2428436474, 2756734187, 3204031479, 3329325298]

/-- SHA-256 initial hash state. -/
def shaH0 : List Nat :=
  [1779033703, 3144134277, 1013904242, 2773480762, 1359893119,
   2600822924, 528734635, 1541459225]

/-- Split a list into chunks of `k` elements (fuel-indexed helper). -/
def chunksAux (k : Nat) : Nat → List Nat → List (List Nat)
  | 0, _ => []
  | _, [] => []
  | n + 1, l => l.take k :: chunksAux k n (l.drop k)

/-- Split a byte list into chunks of `k` bytes. -/
def chunksOf (k : Nat) (l : List Nat) : List (List Nat) := chunksAux k l.length l

/-- Big-endian 32-bit word from up to four bytes. -/
def word32OfBytes (bs : List Nat) : Nat :=
  bs.foldl (fun a b => a * 256 + b) 0

/-- Big-endian bytes of a 32-bit word. -/
def bytesOfWord32 (w : Nat) : List Nat :=
  [(w >>> 24) % 256, (w >>> 16) % 256, (w >>> 8) % 256, w % 256]

/-- Big-endian 64-bit length encoding. -/
def be64 (n : Nat) : List Nat :=
  (List.range 8).map (fun i => (n >>> (8 * (7 - i))) % 256)

/-- SHA-256 message padding: `0x80`, zeros to 56 mod 64, then the bit length. -/
def padMessage (m : List Nat) : List Nat :=
  let z := (64 - ((m.length + 9) % 64)) % 64
  m ++ [0x80] ++ List.replicate z 0 ++ be64 (8 * m.length)

/-- Extend the 16 block words to the 64-entry message schedule. -/
def extendSchedule (ws : Array Nat) : Array Nat :=
  (List.range 48).foldl
    (fun a _ =>
      let i := a.size
      a.push (w32 (sSig1 (a.getD (i - 2) 0) + a.getD (i - 7) 0 +
                   sSig0 (a.getD (i - 15) 0) + a.getD (i - 16) 0)))
    ws

/-- The eight SHA-256 working variables. -/
structure Sha8 where
  a : Nat
  b : Nat
  c : Nat
  d : Nat
  e : Nat
  f : Nat
  g : Nat
  h : Nat

/-- Working variables from a hash-state list. -/
def sha8OfList (l : List Nat) : Sha8 :=
  ⟨l.getD 0 0, l.getD 1 0, l.getD 2 0, l.getD 3 0, l.getD 4 0, l.getD 5 0, l.getD 6 0, l.getD 7 0⟩

/-- One SHA-256 compression round. -/
def compressStep (st : Sha8) (kw : Nat × Nat) : Sha8 :=
  let t1 := w32 (st.h + bSig1 st.e + chf st.e st.f st.g + kw.1 + kw.2)
  let t2 := w32 (bSig0 st.a + majf st.a st.b st.c)
  ⟨w32 (t1 + t2), st.a, st.b, st.c, w32 (st.d + t1), st.e, st.f, st.g⟩

/-- Compress one 64-byte block into the hash state. -/
def compressBlock (hs : List Nat) (block : List Nat) : List Nat :=
  let ws := (extendSchedule ((chunksOf 4 block).map word32OfBytes).toArray).toList
  let st := (shaK.zip ws).foldl compressStep (sha8OfList hs)
  [w32 (hs.getD 0 0 + st.a), w32 (hs.getD 1 0 + st.b), w32 (hs.getD 2 0 + st.c),
   w32 (hs.getD 3 0 + st.d), w32 (hs.getD 4 0 + st.e), w32 (hs.getD 5 0 + st.f),
   w32 (hs.getD 6 0 + st.g), w32 (hs.getD 7 0 + st.h)]

/-- SHA-256 of a byte list. -/
def sha256 (m : List Nat) : List Nat :=
  (((chunksOf 64 (padMessage m)).foldl compressBlock shaH0).map bytesOfWord32).flatten

/-- HMAC-SHA256 with byte-list key and message (block size 64). -/
def hmacSha256 (key msg : List Nat) : List Nat :=
  let k0 := if key.length > 64 then sha256 key else key
  let k := k0 ++ List.replicate (64 - k0.length) 0
  let ipad := k.map (fun b => b ^^^ 0x36)
  let opad := k.map (fun b => b ^^^ 0x5c)
  sha256 (opad ++ sha256 (ipad ++ msg))

/-- Bytes of a string (code points; coincides with UTF-8 on the ASCII payloads used here). -/
def strBytes (s : String) : List Nat := s.data.map Char.toNat

/-- Lowercase hex digit. -/
def hexDigitChar (n : Nat) : Char := if n < 10 then Char.ofNat (48 + n) else Char.ofNat (87 + n)

/-- Lowercase hex encoding of a byte list, as `digest("hex")` produces. -/
def hexOfBytes (bs : List Nat) : String :=
  String.mk (bs.foldr (fun b acc => hexDigitChar (b / 16) :: hexDigitChar (b % 16) :: acc) [])

/- ===== validateInitData (src/server/index.js lines 230-250) ===== -/

/-- Insert a key-value pair into a key-sorted list (JS `sort` comparator
`a < b ? -1 : a > b ? 1 : 0` on the keys). -/
def insertByKey (kv : String × String) : List (String × String) → List (String × String)
  | [] => [kv]
  | x :: xs => if kv.1 < x.1 then kv :: x :: xs else x :: insertByKey kv xs

/-- Sort a field list by key, lexicographically. -/
def sortByKey : List (String × String) → List (String × String)
  | [] => []
  | x :: xs => insertByKey x (sortByKey xs)

/-- The data_check_string: drop the `hash` field, sort the remaining fields by
key, render each as `key=value` and join with newlines (index.js lines 238-242). -/
def canonicalString (fields : List (String × String)) : String :=
  String.intercalate "\n"
    ((sortByKey (fields.filter (fun kv => kv.1 ≠ "hash"))).map (fun kv => kv.1 ++ "=" ++ kv.2))

/-- First value bound to key `k` in the parsed field list. -/
def lookupField (fields : List (String × String)) (k : String) : Option String :=
  (fields.find? (fun kv => kv.1 == k)).map (fun kv => kv.2)

/-- Outcome of `validateInitData`: the verified fields, or the thrown error message. -/
inductive AuthResult where
  | ok (fields : List (String × String))
  | err (msg : String)
deriving DecidableEq, Repr

/-- The verifier `validateInitData` (index.js lines 230-250), from the parsed field list
(`parseInitData` output) onward: reject empty input, reject a missing `hash`,
derive `secret = HMAC_SHA256(key = "WebAppData", message = botToken)`, compare
the hex HMAC of the canonical string against the `hash` field.  The subsequent
`JSON.parse` of the `user` field is outside this model. -/
def validateInitData (fields : List (String × String)) (botToken : String) : AuthResult :=
  if fields.isEmpty then .err "Missing initData"
  else
    match lookupField fields "hash" with
    | none => .err "Missing hash"
    | some hash =>
      let entries := canonicalString fields
      let secret := hmacSha256 (strBytes "WebAppData") (strBytes botToken)
      let check := hexOfBytes (hmacSha256 secret (strBytes entries))
      if check = hash then .ok fields else .err "Bad initData hash"

/-- Whether the verifier accepts (does not throw before returning). -/
def acceptsInitData (fields : List (String × String)) (botToken : String) : Bool :=
  match validateInitData fields botToken with
  | .ok _ => true
  | .err _ => false

/-- Acceptance as claim C1 words it, following the spec text: the signing key
is derived with the shared secret as the HMAC key and the domain-separation
constant as the message (`secret_key = HMAC_SHA256(key = sharedSecret,
message = "WebAppData")`), and a blob is accepted exactly when its `hash`
field equals the hex HMAC of the canonical string under that key. -/
def specClaimedAccept (fields : List (String × String)) (botToken : String) : Bool :=
  match lookupField fields "hash" with
  | some h =>
    h == hexOfBytes (hmacSha256 (hmacSha256 (strBytes botToken) (strBytes "WebAppData"))
                       (strBytes (canonicalString fields)))
  | none => false

/- ===== Game state rows and JS numeric coercions ===== -/

/-- One `game_state` row as stored (db.js: every numeric column is nullable,
hence `Option`).  NUMERIC and INTEGER columns are both modelled in `ℚ`;
`last_update` is a timestamp in milliseconds. -/
structure StoredRow where
  tokens : Option ℚ
  level : Option ℚ
  tap_power : Option ℚ
  energy : Option ℚ
  cap : Option ℚ
  regen_per_sec : Option ℚ
  last_update : Option ℚ
deriving DecidableEq, Repr

/-- The helper `safeNum(v, d)` (index.js lines 280-283): the value when finite and
positive, else the default; SQL NULL reads as JS `null`, which is not `> 0`. -/
def safeNum (v : Option ℚ) (d : ℚ) : ℚ :=
  match v with
  | some n => if 0 < n then n else d
  | none => d

/-- JS `Number(v)` on a nullable column: `Number(null) = 0`. -/
def jsNum (v : Option ℚ) : ℚ := v.getD 0

/-- JS `Number(v) || d`: the default replaces both `null` and `0`. -/
def jsNumOr (v : Option ℚ) (d : ℚ) : ℚ :=
  match v with
  | some n => if n = 0 then d else n
  | none => d

/-- The regen catch-up `applyRegen` (index.js lines 303-316): read the row, take
`dt = max(0, (now - last)/1000)` seconds (a missing `last_update` reads as
`now`), default `cap` and `regen_per_sec` through `safeNum`, read a missing
`energy` as 0 (`Number(st.energy || 0)`), and write back
`energy = min(cap, energy + regen*dt)` together with `last_update = now`. -/
def applyRegenRow (r : StoredRow) (now : ℚ) : StoredRow :=
  let last := (r.last_update).getD now
  let dt := max 0 ((now - last) / 1000)
  let capd := safeNum r.cap 100
  let regen := safeNum r.regen_per_sec 2
  let energy := min capd ((r.energy).getD 0 + regen * dt)
  { r with energy := some energy, last_update := some now }

/-- The energy value `applyRegen` computes and persists. -/
def regenEnergy (r : StoredRow) (now : ℚ) : ℚ :=
  min (safeNum r.cap 100)
    ((r.energy).getD 0 + safeNum r.regen_per_sec 2 * max 0 ((now - (r.last_update).getD now) / 1000))

/-- The state snapshot returned to the client.  `level` stays `Option` because
the success paths of tap/upgrade return the raw row value for it. -/
structure Snapshot where
  tokens : ℚ
  level : Option ℚ
  tap_power : ℚ
  energy : ℚ
  cap : ℚ
  regen_per_sec : ℚ
  upgrade_cost : ℚ
deriving DecidableEq, Repr

/-- The reader `loadState` (index.js lines 285-301).  In `Math.min(safeNum(s.cap, 100),
Number(s.energy) ?? 100)` the `?? 100` is inert because `Number` never yields
a nullish value (`Number(null) = 0`), so a NULL energy reads as 0. -/
def loadState (r : StoredRow) : Snapshot :=
  { tokens := jsNumOr r.tokens 0
    level := some (jsNumOr r.level 1)
    tap_power := safeNum r.tap_power 1
    cap := safeNum r.cap 100
    energy := min (safeNum r.cap 100) (jsNum r.energy)
    regen_per_sec := safeNum r.regen_per_sec 2
    upgrade_cost := max 10 (safeNum r.tap_power 1 * 20) }

/-- SQL addition over nullable values: NULL propagates. -/
def sqlAdd (a b : Option ℚ) : Option ℚ :=
  match a, b with
  | some x, some y => some (x + y)
  | _, _ => none

/-- SQL subtraction over nullable values: NULL propagates. -/
def sqlSub (a b : Option ℚ) : Option ℚ :=
  match a, b with
  | some x, some y => some (x - y)
  | _, _ => none

/-- The tap UPDATE (index.js lines 355-366): guarded by `energy >= 1` (a NULL
energy fails the SQL comparison, matching no row), it sets
`energy = GREATEST(0, energy - 1)`, `tokens = tokens + tap_power`,
`last_update = now`.  `none` models the zero-row outcome. -/
def tapUpdate (r : StoredRow) (now : ℚ) : Option StoredRow :=
  match r.energy with
  | some e =>
    if 1 ≤ e then
      some { r with
              energy := some (max 0 (e - 1)),
              tokens := sqlAdd r.tokens r.tap_power,
              last_update := some now }
    else none
  | none => none

/-- The snapshot the tap and upgrade success paths build from the RETURNING
row (index.js lines 373-382 and 422-430). -/
def returnedSnapshot (s : StoredRow) : Snapshot :=
  { tokens := jsNumOr s.tokens 0
    level := s.level
    tap_power := safeNum s.tap_power 1
    energy := jsNumOr s.energy 0
    cap := safeNum s.cap 100
    regen_per_sec := safeNum s.regen_per_sec 2
    upgrade_cost := max 10 (safeNum s.tap_power 1 * 20) }

/-- The tap endpoint's JSON body: both the applied and the skipped branch
answer `ok: true` with a state and nothing else (index.js line 384). -/
structure TapResponse where
  ok : Bool
  state : Snapshot
deriving DecidableEq, Repr

/-- The `/api/tap` handler after player resolution (index.js lines 344-388):
persist the regen catch-up, attempt the guarded tap UPDATE; on zero rows
return the loaded current state, otherwise the normalized RETURNING row.
The returned pair is (final persisted row, response body). -/
def tapEndpoint (r : StoredRow) (now : ℚ) : StoredRow × TapResponse :=
  match tapUpdate (applyRegenRow r now) now with
  | none => (applyRegenRow r now, { ok := true, state := loadState (applyRegenRow r now) })
  | some r2 => (r2, { ok := true, state := returnedSnapshot r2 })

/-- The successive storage commits a tap request performs: `applyRegen`'s
UPDATE always commits first on its own, then the tap UPDATE commits if its
guard matched (each `q(...)` is a separate auto-committed statement). -/
def tapCommitSeq (r : StoredRow) (now : ℚ) : List StoredRow :=
  match tapUpdate (applyRegenRow r now) now with
  | none => [applyRegenRow r now]
  | some r2 => [applyRegenRow r now, r2]

/-- Server-side upgrade cost (index.js line 403): `max(10, tap_power * 20)`
over the row snapshot, with `safeNum` defaulting `tap_power` to 1. -/
def upgradeCost (r : StoredRow) : ℚ := max 10 (safeNum r.tap_power 1 * 20)

/-- The upgrade UPDATE (index.js lines 409-419): unconditionally
`tokens = tokens - cost`, `tap_power = tap_power + 1`, `last_update = now` —
its WHERE clause names only the player, with no `tokens >= cost` guard. -/
def upgradeUpdate (r : StoredRow) (cost : ℚ) (now : ℚ) : StoredRow :=
  { r with
      tokens := sqlSub r.tokens (some cost),
      tap_power := sqlAdd r.tap_power (some 1),
      last_update := some now }

/-- The upgrade endpoint's JSON body (`ok`, optional error text, state). -/
structure UpgradeResponse where
  ok : Bool
  error : Option String
  state : Snapshot
deriving DecidableEq, Repr

/-- The `/api/upgrade` handler after player resolution (index.js lines
390-436): persist regen, read the row, compute the cost server-side, compare
`Number(cur.tokens) < cost` in the application, and either soft-fail with the
current state or run the unguarded UPDATE. -/
def upgradeEndpoint (r : StoredRow) (now : ℚ) : StoredRow × UpgradeResponse :=
  if jsNum (applyRegenRow r now).tokens < upgradeCost (applyRegenRow r now) then
    (applyRegenRow r now,
     { ok := false, error := some "Not enough coins",
       state := loadState (applyRegenRow r now) })
  else
    (upgradeUpdate (applyRegenRow r now) (upgradeCost (applyRegenRow r now)) now,
     { ok := true, error := none,
       state := returnedSnapshot
         (upgradeUpdate (applyRegenRow r now) (upgradeCost (applyRegenRow r now)) now) })

/-- The successive storage commits an upgrade request performs. -/
def upgradeCommitSeq (r : StoredRow) (now : ℚ) : List StoredRow :=
  if jsNum (applyRegenRow r now).tokens < upgradeCost (applyRegenRow r now) then
    [applyRegenRow r now]
  else
    [applyRegenRow r now,
     upgradeUpdate (applyRegenRow r now) (upgradeCost (applyRegenRow r now)) now]

/-- The first storage commit of a tap request exposes the regen catch-up
alone, with the action's own commit still to come. -/
def regenExposedTap (r : StoredRow) (now : ℚ) : Prop :=
  ∃ rest, tapCommitSeq r now = applyRegenRow r now :: rest ∧ rest ≠ []

/-- The first storage commit of an upgrade request exposes the regen catch-up
alone, with the action's own commit still to come. -/
def regenExposedUpgrade (r : StoredRow) (now : ℚ) : Prop :=
  ∃ rest, upgradeCommitSeq r now = applyRegenRow r now :: rest ∧ rest ≠ []

/- ===== Interleaving two upgrade requests ===== -/

/-- Progress of one in-flight upgrade request: `pc = 0` before its regen
round trip, `1` before its SELECT, `2` before its UPDATE (with the cost and
the token check memoized from the SELECT-time snapshot), `3` finished. -/
structure UpgradeTx where
  pc : Nat
  cost : ℚ
  passed : Bool
deriving DecidableEq, Repr

/-- A not-yet-started upgrade request. -/
def txInit : UpgradeTx := ⟨0, 0, false⟩

/-- One storage round trip of an upgrade request against the shared row:
the regen write, then the SELECT computing `cost` and checking
`Number(cur.tokens) < cost` against the snapshot, then (only if the check
passed) the unguarded UPDATE with the memoized cost. -/
def upgradeTxStep (r : StoredRow) (t : UpgradeTx) (now : ℚ) : StoredRow × UpgradeTx :=
  match t.pc with
  | 0 => (applyRegenRow r now, { t with pc := 1 })
  | 1 =>
    let cost := upgradeCost r
    (r, { pc := 2, cost := cost, passed := if jsNum r.tokens < cost then false else true })
  | 2 =>
    if t.passed then (upgradeUpdate r t.cost now, { t with pc := 3 })
    else (r, { t with pc := 3 })
  | _ => (r, t)

/-- Run two concurrent upgrade requests under a schedule: `true` steps the
first transaction, `false` the second; returns the final shared row. -/
def runTwoUpgrades : List Bool → StoredRow → UpgradeTx → UpgradeTx → ℚ → StoredRow
  | [], r, _, _, _ => r
  | b :: rest, r, t1, t2, now =>
    if b then
      let p := upgradeTxStep r t1 now
      runTwoUpgrades rest p.1 p.2 t2 now
    else
      let p := upgradeTxStep r t2 now
      runTwoUpgrades rest p.1 t1 p.2 now

/- ===== Player directory (ensurePlayer, index.js lines 252-278) ===== -/

/-- The identity record parsed from the credential blob's `user` field. -/
structure TgUser where
  id : Int
  username : Option String
  first_name : Option String
  last_name : Option String
  photo_url : Option String

/-- One row of the `players` table. -/
structure PlayerRow where
  id : Nat
  tg_user_id : Int
  username : Option String
  first_name : Option String
  last_name : Option String
  photo_url : Option String
deriving DecidableEq, Repr

/-- The two tables the directory touches, with the SERIAL id counter. -/
structure Db where
  players : List PlayerRow
  states : List (Nat × StoredRow)
  nextId : Nat

/-- A fresh `game_state` row from the column defaults (db.js lines 51-58):
tokens 0, level 1, tap_power 1, energy 100, cap 100, regen_per_sec 2,
last_update NOW(). -/
def defaultStoredRow (now : ℚ) : StoredRow :=
  { tokens := some 0, level := some 1, tap_power := some 1, energy := some 100,
    cap := some 100, regen_per_sec := some 2, last_update := some now }

/-- The players upsert (`INSERT ... ON CONFLICT (tg_user_id) DO UPDATE SET`
display metadata): overwrite metadata when the external id is known, else
append a fresh row under the next SERIAL id. -/
def upsertPlayer (db : Db) (u : TgUser) : Db × PlayerRow :=
  match db.players.find? (fun p => p.tg_user_id == u.id) with
  | some p =>
    let updated : PlayerRow :=
      { p with username := u.username, first_name := u.first_name,
               last_name := u.last_name, photo_url := u.photo_url }
    ({ db with
        players := db.players.map (fun x => if x.tg_user_id == u.id then updated else x) },
     updated)
  | none =>
    let fresh : PlayerRow :=
      ⟨db.nextId, u.id, u.username, u.first_name, u.last_name, u.photo_url⟩
    ({ db with players := db.players ++ [fresh], nextId := db.nextId + 1 }, fresh)

/-- The statement `INSERT INTO game_state (player_id) VALUES ($1) ON CONFLICT
(player_id) DO NOTHING` — insert a default row only when the player has none. -/
def insertStateIfAbsent (db : Db) (pid : Nat) (now : ℚ) : Db :=
  match db.states.find? (fun s => s.1 == pid) with
  | some _ => db
  | none => { db with states := db.states ++ [(pid, defaultStoredRow now)] }

/-- The directory operation `ensurePlayer` (index.js lines 252-278): upsert the player row, then
idempotently ensure a game_state row exists for it. -/
def ensurePlayer (db : Db) (u : TgUser) (now : ℚ) : Db × PlayerRow :=
  let res := upsertPlayer db u
  (insertStateIfAbsent res.1 res.2.id now, res.2)

/-- The game_state row stored for a player id. -/
def lookupState (db : Db) (pid : Nat) : Option StoredRow :=
  (db.states.find? (fun s => s.1 == pid)).map (fun s => s.2)

/- ===== Claim C2: concurrency of upgrades ===== -/

/-- The player row of the spec's example scenario: 25 tokens, tap_power 1. -/
def raceRow : StoredRow :=
  ⟨some 25, some 1, some 1, some 100, some 100, some 2, some 0⟩

/-- C2: the upgrade endpoint checks `tokens >= cost` in the application, after
a plain SELECT, and then runs an UPDATE with no guard in its WHERE clause.
Interleaving two upgrade requests for the same player (both SELECTs before
either UPDATE) from `{tokens: 25, tap_power: 1}` drives tokens to `-15 < 0`,
while either serial ordering of the two requests ends at tokens 5 — so the
net effect matches no serial ordering and tokens go negative, exactly what
the claim says the atomic conditional update rules out. -/
theorem upgrade_race_drives_tokens_negative :
    (runTwoUpgrades [true, false, true, false, true, false] raceRow txInit txInit 0).tokens
        = some (-15) ∧
    ((-15 : ℚ) < 0) ∧
    (runTwoUpgrades [true, true, true, false, false, false] raceRow txInit txInit 0).tokens
        = some 5 ∧
    (runTwoUpgrades [false, false, false, true, true, true] raceRow txInit txInit 0).tokens
        = some 5 := by
  refine ⟨?_, by norm_num, ?_, ?_⟩ <;> with_unfolding_all rfl

/- ===== Claim C3: regen is persisted separately from the action ===== -/

/-- A row with 5 energy, last caught up at t = 1000ms. -/
def c3Row : StoredRow :=
  ⟨some 0, some 1, some 1, some 5, some 100, some 2, some 1000⟩

/-- C3 counterexample: at t = 5000ms the tap request first commits the regen
catch-up on its own (energy 5 → 13, tokens still 0) and only afterwards
commits the tap mutation, so a persisted state with the request's regen
applied but its action still pending is reachable — the regen write is a
separate storage write racing the action's write. -/
theorem regen_persisted_alone_in_tap :
    regenExposedTap c3Row 5000 ∧
    applyRegenRow c3Row 5000 =
      ⟨some 0, some 1, some 1, some 13, some 100, some 2, some 5000⟩ ∧
    tapCommitSeq c3Row 5000 =
      [⟨some 0, some 1, some 1, some 13, some 100, some 2, some 5000⟩,
       ⟨some 1, some 1, some 1, some 12, some 100, some 2, some 5000⟩] := by
  refine ⟨⟨[⟨some 1, some 1, some 1, some 12, some 100, some 2, some 5000⟩], ?_, ?_⟩, ?_, ?_⟩
  · with_unfolding_all rfl
  · simp
  · with_unfolding_all rfl
  · with_unfolding_all rfl

/-- C3 amended: the regen catch-up is always persisted by `applyRegen` as its
own first storage commit; whenever the action's guard holds the action's
mutation lands in a second, separate commit (and likewise for upgrade), so
the two never commit together. -/
theorem regen_commit_precedes_action_commit (r : StoredRow) (now : ℚ) :
    (tapCommitSeq r now).head? = some (applyRegenRow r now) ∧
    (upgradeCommitSeq r now).head? = some (applyRegenRow r now) ∧
    (∀ r2, tapUpdate (applyRegenRow r now) now = some r2 →
      tapCommitSeq r now = [applyRegenRow r now, r2]) := by
  refine ⟨?_, ?_, ?_⟩
  · cases h : tapUpdate (applyRegenRow r now) now with
    | none => unfold tapCommitSeq; rw [h]; rfl
    | some r2 => unfold tapCommitSeq; rw [h]; rfl
  · by_cases h : jsNum (applyRegenRow r now).tokens < upgradeCost (applyRegenRow r now)
    · unfold upgradeCommitSeq; rw [if_pos h]; rfl
    · unfold upgradeCommitSeq; rw [if_neg h]; rfl
  · intro r2 h2
    unfold tapCommitSeq; rw [h2]

/-- C3 amended witness at the concrete row. -/
theorem regen_commit_precedes_action_commit_witness :
    tapCommitSeq c3Row 5000 =
      [applyRegenRow c3Row 5000,
       ⟨some 1, some 1, some 1, some 12, some 100, some 2, some 5000⟩] :=
  (regen_commit_precedes_action_commit c3Row 5000).2.2
    ⟨some 1, some 1, some 1, some 12, some 100, some 2, some 5000⟩
    (by with_unfolding_all rfl)

/- ===== Claim C4: effect of a successful tap ===== -/

/-- C4: on any row whose (post-regen) energy is at least 1, the tap UPDATE
matches and produces exactly `tokens + tap_power`, `energy - 1` and
`last_update = now`, leaving level, tap_power, cap and regen_per_sec
untouched (the record update names only the three changed fields). -/
theorem tap_success_effect (r : StoredRow) (now e t p : ℚ)
    (he : r.energy = some e) (ht : r.tokens = some t) (hp : r.tap_power = some p)
    (h1 : 1 ≤ e) :
    tapUpdate r now =
      some { r with
              energy := some (e - 1),
              tokens := some (t + p),
              last_update := some now } := by
  have hmax : max 0 (e - 1) = e - 1 := max_eq_right (by linarith)
  simp only [tapUpdate, he, ht, hp, if_pos h1, sqlAdd, hmax]

/-- A row with energy 3, tokens 7, tap_power 2. -/
def c4Row : StoredRow :=
  ⟨some 7, some 1, some 2, some 3, some 100, some 2, some 1000⟩

/-- C4 witness: the tap effect at the concrete row. -/
theorem tap_success_effect_witness :
    tapUpdate c4Row 1000 =
      some { c4Row with
              energy := some ((3 : ℚ) - 1),
              tokens := some ((7 : ℚ) + 2),
              last_update := some 1000 } :=
  tap_success_effect c4Row 1000 3 7 2 rfl rfl rfl (by norm_num)

/- ===== Claim C5: tap with insufficient energy ===== -/

/-- A row whose post-regen energy is 0 (tokens 5). -/
def c5SkipRow : StoredRow :=
  ⟨some 5, some 1, some 1, some 0, some 100, some 2, some 1000⟩

/-- A row whose post-regen energy is 1 (tokens 4). -/
def c5HitRow : StoredRow :=
  ⟨some 4, some 1, some 1, some 1, some 100, some 2, some 1000⟩

/-- C5 counterexample: a skipped tap (post-regen energy 0) and a successful
tap (post-regen energy 1, tokens one lower) produce byte-for-byte identical
response bodies — both `ok: true` with the same state snapshot — so the
result of a skipped tap is not flagged as skipped and the caller cannot
distinguish "action applied" from "action skipped" from the response. -/
theorem tap_skip_response_indistinguishable :
    (applyRegenRow c5SkipRow 1000).energy = some 0 ∧
    ((0 : ℚ) < 1) ∧
    (applyRegenRow c5HitRow 1000).energy = some 1 ∧
    ((1 : ℚ) ≥ 1) ∧
    c5SkipRow ≠ c5HitRow ∧
    (tapEndpoint c5SkipRow 1000).2 = (tapEndpoint c5HitRow 1000).2 := by
  refine ⟨?_, by norm_num, ?_, by norm_num, ?_, ?_⟩
  · with_unfolding_all rfl
  · with_unfolding_all rfl
  · with_unfolding_all decide
  · with_unfolding_all rfl

/-- C5 amended: when the post-regen energy is below 1 the tap UPDATE matches
no row; the endpoint still persists the regen catch-up, answers without an
error code (`ok: true`), returns the loaded current state, and the tokens it
shows are the stored tokens unchanged — but the response carries no skipped
flag (`ok` is `true` for skipped and applied taps alike). -/
theorem tap_skip_soft_fail (r : StoredRow) (now e : ℚ)
    (he : (applyRegenRow r now).energy = some e) (hlt : e < 1) :
    (tapEndpoint r now).1 = applyRegenRow r now ∧
    (tapEndpoint r now).2.ok = true ∧
    (tapEndpoint r now).2.state = loadState (applyRegenRow r now) ∧
    (tapEndpoint r now).2.state.tokens = jsNumOr r.tokens 0 ∧
    (∀ (x : StoredRow) (y : ℚ), (tapEndpoint x y).2.ok = true) := by
  have hnone : tapUpdate (applyRegenRow r now) now = none := by
    simp only [tapUpdate, he, if_neg (not_le.mpr hlt)]
  have hok : ∀ (x : StoredRow) (y : ℚ), (tapEndpoint x y).2.ok = true := by
    intro x y
    unfold tapEndpoint
    cases tapUpdate (applyRegenRow x y) y <;> rfl
  refine ⟨?_, hok r now, ?_, ?_, hok⟩
  · unfold tapEndpoint; rw [hnone]
  · unfold tapEndpoint; rw [hnone]
  · unfold tapEndpoint; rw [hnone]
    show (loadState (applyRegenRow r now)).tokens = jsNumOr r.tokens 0
    rfl

/-- C5 amended witness at the concrete row. -/
theorem tap_skip_soft_fail_witness :
    (tapEndpoint c5SkipRow 1000).1 = applyRegenRow c5SkipRow 1000 ∧
    (tapEndpoint c5SkipRow 1000).2.ok = true ∧
    (tapEndpoint c5SkipRow 1000).2.state = loadState (applyRegenRow c5SkipRow 1000) ∧
    (tapEndpoint c5SkipRow 1000).2.state.tokens = jsNumOr c5SkipRow.tokens 0 ∧
    (∀ (x : StoredRow) (y : ℚ), (tapEndpoint x y).2.ok = true) :=
  tap_skip_soft_fail c5SkipRow 1000 0 (by with_unfolding_all rfl) (by norm_num)

/- ===== Claim C6: upgrade cost and effect ===== -/

/-- The scenario's starting row: 25 tokens, tap_power 1. -/
def c6RowA : StoredRow :=
  ⟨some 25, some 1, some 1, some 100, some 100, some 2, some 0⟩

/-- The scenario's row after one upgrade: 5 tokens, tap_power 2. -/
def c6RowB : StoredRow :=
  ⟨some 5, some 1, some 2, some 100, some 100, some 2, some 0⟩

/-- C6: the upgrade endpoint takes no client-supplied cost — the cost is
recomputed as `max(10, tap_power * 20)` from the post-regen row snapshot.
With enough tokens the persisted row has exactly `tokens - cost` and
`tap_power + 1`; otherwise the persisted row is exactly the post-regen row
and the response is flagged failed (`ok: false` with a reason).  The closing
conjuncts replay the spec's scenario: from `{tokens: 25, tap_power: 1}` the
upgrade at cost 20 persists `{tokens: 5, tap_power: 2}`, and the next
upgrade, at cost 40, fails leaving the row unchanged. -/
theorem upgrade_cost_server_side_effect (r : StoredRow) (now t p : ℚ)
    (ht : r.tokens = some t) (hp : r.tap_power = some p) (hp0 : 0 < p) :
    ((applyRegenRow r now).tokens = some t) ∧
    ((applyRegenRow r now).tap_power = some p) ∧
    (upgradeCost (applyRegenRow r now) = max 10 (p * 20)) ∧
    (max 10 (p * 20) ≤ t →
       (upgradeEndpoint r now).1.tokens = some (t - max 10 (p * 20)) ∧
       (upgradeEndpoint r now).1.tap_power = some (p + 1) ∧
       (upgradeEndpoint r now).2.ok = true ∧
       (upgradeEndpoint r now).2.error = none) ∧
    (t < max 10 (p * 20) →
       (upgradeEndpoint r now).1 = applyRegenRow r now ∧
       (upgradeEndpoint r now).2.ok = false ∧
       (upgradeEndpoint r now).2.error = some "Not enough coins") ∧
    ((upgradeEndpoint c6RowA 0).1 = c6RowB ∧
     (upgradeEndpoint c6RowA 0).2.ok = true ∧
     upgradeCost (applyRegenRow c6RowA 0) = 20 ∧
     (upgradeEndpoint c6RowB 0).1 = c6RowB ∧
     (upgradeEndpoint c6RowB 0).2.ok = false ∧
     upgradeCost (applyRegenRow c6RowB 0) = 40) := by
  have hrt : (applyRegenRow r now).tokens = some t := ht
  have hrp : (applyRegenRow r now).tap_power = some p := hp
  have hcost : upgradeCost (applyRegenRow r now) = max 10 (p * 20) := by
    simp only [upgradeCost, hrp, safeNum, if_pos hp0]
  refine ⟨hrt, hrp, hcost, ?_, ?_, ?_, ?_, ?_, ?_, ?_, ?_⟩
  · intro hle
    have hguard : ¬ (jsNum (applyRegenRow r now).tokens < upgradeCost (applyRegenRow r now)) := by
      rw [hcost]
      simp only [jsNum, hrt, Option.getD]
      exact not_lt.mpr hle
    unfold upgradeEndpoint
    rw [if_neg hguard]
    refine ⟨?_, ?_, rfl, rfl⟩
    · show sqlSub (applyRegenRow r now).tokens (some (upgradeCost (applyRegenRow r now))) =
        some (t - max 10 (p * 20))
      rw [hrt, hcost]
      rfl
    · show sqlAdd (applyRegenRow r now).tap_power (some 1) = some (p + 1)
      rw [hrp]
      rfl
  · intro hlt
    have hguard : jsNum (applyRegenRow r now).tokens < upgradeCost (applyRegenRow r now) := by
      rw [hcost]
      simp only [jsNum, hrt, Option.getD]
      exact hlt
    unfold upgradeEndpoint
    rw [if_pos hguard]
    exact ⟨rfl, rfl, rfl⟩
  all_goals with_unfolding_all rfl

/-- C6 witness: the server-side cost at the concrete scenario row. -/
theorem upgrade_cost_server_side_effect_witness :
    upgradeCost (applyRegenRow c6RowA 0) = max 10 ((1 : ℚ) * 20) :=
  (upgrade_cost_server_side_effect c6RowA 0 25 1 rfl rfl (by norm_num)).2.2.1

/- ===== Claim C7: regen algebra ===== -/

/-- Clamped addition under a fixed cap absorbs: adding a further non-negative
amount to an already clamped value and clamping again equals clamping the
total. -/
lemma min_min_add (c x b : ℚ) (hb : 0 ≤ b) : min c (min c x + b) = min c (x + b) := by
  rcases le_total x c with h | h
  · rw [min_eq_right h]
  · rw [min_eq_left h, min_eq_left (le_add_of_nonneg_right hb),
        min_eq_left (le_trans h (le_add_of_nonneg_right hb))]

/-- A row caught up at t = 10000ms with zero energy (valid: cap 100 > 0,
regen 2 > 0, 0 ≤ energy ≤ cap). -/
def c7Row : StoredRow :=
  ⟨some 0, some 1, some 1, some 0, some 100, some 2, some 10000⟩

/-- C7 counterexample: the claim quantifies over all valid regen inputs
(cap > 0, regen_per_sec > 0, 0 ≤ energy ≤ cap) and all t2 > t1, but when the
first regen runs before the stored `last_update` (clock skew, t1 = 0 <
last_update = 10000ms) composability fails: regen at t1 = 0 clamps elapsed
time to zero yet rewrites `last_update` to 0, so regen at t2 = 11000ms then
credits 11 seconds (energy 22) where direct regen at t2 credits only 1
second (energy 2). -/
theorem regen_composability_clock_skew_refuted :
    c7Row.cap = some 100 ∧ c7Row.regen_per_sec = some 2 ∧ c7Row.energy = some 0 ∧
    ((0 : ℚ) < 100) ∧ ((0 : ℚ) < 2) ∧ ((0 : ℚ) ≤ 0) ∧ ((0 : ℚ) ≤ 100) ∧
    ((0 : ℚ) < 11000) ∧
    (applyRegenRow (applyRegenRow c7Row 0) 11000).energy = some 22 ∧
    (applyRegenRow c7Row 11000).energy = some 2 ∧
    applyRegenRow (applyRegenRow c7Row 0) 11000 ≠ applyRegenRow c7Row 11000 := by
  refine ⟨rfl, rfl, rfl, by norm_num, by norm_num, by norm_num, by norm_num, by norm_num,
    ?_, ?_, ?_⟩
  · with_unfolding_all rfl
  · with_unfolding_all rfl
  · with_unfolding_all decide

/-- C7 amended: for valid regen inputs the computed energy is monotonically
non-decreasing in `now`, never exceeds the cap, and regen is composable —
`regen` at t1 followed by `regen` at t2 equals `regen` at t2 directly —
provided the first instant is not before the stored `last_update`
(`l ≤ t1`, the condition the clock-skew counterexample forces). -/
theorem regen_monotone_capped_composable (r : StoredRow) (e c ρ l t1 t2 : ℚ)
    (he : r.energy = some e) (hc : r.cap = some c) (hρ : r.regen_per_sec = some ρ)
    (hl : r.last_update = some l)
    (hc0 : 0 < c) (hρ0 : 0 < ρ) (he0 : 0 ≤ e) (hec : e ≤ c) :
    (∀ n : ℚ, (applyRegenRow r n).energy = some (regenEnergy r n)) ∧
    (∀ n1 n2 : ℚ, n1 ≤ n2 → regenEnergy r n1 ≤ regenEnergy r n2) ∧
    (∀ n : ℚ, regenEnergy r n ≤ c) ∧
    (l ≤ t1 → t1 < t2 → applyRegenRow (applyRegenRow r t1) t2 = applyRegenRow r t2) := by
  have hcap : safeNum r.cap 100 = c := by rw [hc]; simp [safeNum, if_pos hc0]
  have hreg : safeNum r.regen_per_sec 2 = ρ := by rw [hρ]; simp [safeNum, if_pos hρ0]
  refine ⟨fun n => rfl, ?_, ?_, ?_⟩
  · intro n1 n2 hn
    unfold regenEnergy
    rw [hcap, hreg, he, hl]
    refine min_le_min le_rfl (add_le_add_left ?_ _)
    refine mul_le_mul_of_nonneg_left ?_ (le_of_lt hρ0)
    refine max_le_max le_rfl ?_
    exact div_le_div_of_nonneg_right (sub_le_sub_right hn l) (by norm_num)
  · intro n
    unfold regenEnergy
    rw [hcap]
    exact min_le_left _ _
  · intro h1 h2
    have hd1 : max 0 ((t1 - l) / 1000) = (t1 - l) / 1000 :=
      max_eq_right (div_nonneg (sub_nonneg.mpr h1) (by norm_num))
    have hd2 : max 0 ((t2 - t1) / 1000) = (t2 - t1) / 1000 :=
      max_eq_right (div_nonneg (sub_nonneg.mpr (le_of_lt h2)) (by norm_num))
    have hd3 : max 0 ((t2 - l) / 1000) = (t2 - l) / 1000 :=
      max_eq_right (div_nonneg (sub_nonneg.mpr (le_trans h1 (le_of_lt h2))) (by norm_num))
    show ({ applyRegenRow r t1 with
              energy := some (regenEnergy (applyRegenRow r t1) t2),
              last_update := some t2 } : StoredRow) =
         { r with energy := some (regenEnergy r t2), last_update := some t2 }
    have henergy : regenEnergy (applyRegenRow r t1) t2 = regenEnergy r t2 := by
      show min (safeNum r.cap 100)
          ((some (regenEnergy r t1)).getD 0 +
            safeNum r.regen_per_sec 2 * max 0 ((t2 - (some t1).getD t2) / 1000)) =
        regenEnergy r t2
      unfold regenEnergy
      rw [hcap, hreg, he, hl]
      simp only [Option.getD]
      rw [hd1, hd2, hd3, min_min_add c _ _ (mul_nonneg (le_of_lt hρ0)
        (div_nonneg (sub_nonneg.mpr (le_of_lt h2)) (by norm_num)))]
      ring_nf
    rw [henergy]
    show ({ r with energy := some (regenEnergy r t2), last_update := some t2 } : StoredRow) =
      { r with energy := some (regenEnergy r t2), last_update := some t2 }
    rfl

/-- C7 amended witness: a concrete valid composable instance
(l = 1000 ≤ t1 = 2000 < t2 = 3000). -/
theorem regen_monotone_capped_composable_witness :
    applyRegenRow (applyRegenRow c3Row 2000) 3000 = applyRegenRow c3Row 3000 :=
  (regen_monotone_capped_composable c3Row 5 100 2 1000 2000 3000
    rfl rfl rfl rfl (by norm_num) (by norm_num) (by norm_num) (by norm_num)).2.2.2
    (by norm_num) (by norm_num)

/- ===== Claim C8: defensive defaulting before regen ===== -/

/-- Following the spec's words (claim C8): `cap` defaults to 100 when null or
non-positive. -/
def specCapDefault (v : Option ℚ) : ℚ :=
  match v with
  | none => 100
  | some c => if c ≤ 0 then 100 else c

/-- Following the spec's words (claim C8): `regen_per_sec` defaults to 2 when
null or non-positive. -/
def specRegenDefault (v : Option ℚ) : ℚ :=
  match v with
  | none => 2
  | some x => if x ≤ 0 then 2 else x

/-- Following the spec's words (claim C8): `energy` defaults to the
(defaulted) cap when null or below the minimum threshold 1. -/
def specEnergyDefault (v : Option ℚ) (capd : ℚ) : ℚ :=
  match v with
  | none => capd
  | some e => if e < 1 then capd else e

/-- Following the spec's words (claim C8): the row with all three defensive
defaults applied before any use. -/
def specDefaultedRow (r : StoredRow) : StoredRow :=
  { r with
      cap := some (specCapDefault r.cap),
      regen_per_sec := some (specRegenDefault r.regen_per_sec),
      energy := some (specEnergyDefault r.energy (specCapDefault r.cap)) }

/-- A stored row whose energy column is NULL. -/
def c8Row : StoredRow :=
  ⟨some 0, some 1, some 1, none, some 100, some 2, some 1000⟩

/-- C8 counterexample: on a row with NULL energy the ResourceClock does not
behave as if energy had been defaulted to cap — `applyRegen` reads NULL
energy as 0 (`Number(st.energy || 0)`) and persists energy 0, while the
spec-described defaulting would persist energy 100. -/
theorem regen_null_energy_not_defaulted_to_cap :
    c8Row.energy = none ∧
    (applyRegenRow c8Row 1000).energy = some 0 ∧
    (applyRegenRow (specDefaultedRow c8Row) 1000).energy = some 100 ∧
    (applyRegenRow c8Row 1000).energy ≠ (applyRegenRow (specDefaultedRow c8Row) 1000).energy := by
  refine ⟨rfl, ?_, ?_, ?_⟩
  · with_unfolding_all rfl
  · with_unfolding_all rfl
  · with_unfolding_all decide

/-- The code's `safeNum(v, 100)` agrees with the spec's cap defaulting. -/
lemma safeNum_eq_specCapDefault (v : Option ℚ) : safeNum v 100 = specCapDefault v := by
  cases v with
  | none => rfl
  | some c =>
    simp only [safeNum, specCapDefault]
    rcases le_or_lt c 0 with h | h
    · rw [if_neg (not_lt.mpr h), if_pos h]
    · rw [if_pos h, if_neg (not_le.mpr h)]

/-- The code's `safeNum(v, 2)` agrees with the spec's regen defaulting. -/
lemma safeNum_eq_specRegenDefault (v : Option ℚ) : safeNum v 2 = specRegenDefault v := by
  cases v with
  | none => rfl
  | some x =>
    simp only [safeNum, specRegenDefault]
    rcases le_or_lt x 0 with h | h
    · rw [if_neg (not_lt.mpr h), if_pos h]
    · rw [if_pos h, if_neg (not_le.mpr h)]

/-- C8 amended: before use the ResourceClock does default `cap` (to 100) and
`regen_per_sec` (to 2) when null or non-positive, exactly as the spec says,
but it does not default `energy` to cap: a NULL energy is read as 0 and a
stored energy below 1 is used as-is (the null-or-below-1 → 100 reset exists
only in the one-time bootstrap repair of `initTables`, not before each use). -/
theorem regen_defaults_cap_regen_but_not_energy (r : StoredRow) (now : ℚ) :
    (applyRegenRow r now).energy =
      some (min (specCapDefault r.cap)
        ((r.energy).getD 0 +
          specRegenDefault r.regen_per_sec * max 0 ((now - (r.last_update).getD now) / 1000))) := by
  show (some (regenEnergy r now) : Option ℚ) = _
  unfold regenEnergy
  rw [safeNum_eq_specCapDefault, safeNum_eq_specRegenDefault]

/- ===== Claim C9: 0 ≤ energy ≤ cap is preserved ===== -/

/-- The claim's well-formedness condition on a stored row: energy, cap and
regen_per_sec are present with `0 ≤ energy ≤ cap`, `cap > 0` and
`regen_per_sec > 0`. -/
def RowInv (r : StoredRow) : Prop :=
  ∃ e c ρ, r.energy = some e ∧ r.cap = some c ∧ r.regen_per_sec = some ρ ∧
    0 ≤ e ∧ e ≤ c ∧ 0 < c ∧ 0 < ρ

/-- C9: each core operation preserves `0 ≤ energy ≤ cap`: the regen catch-up
clamps into `[0, cap]`, a matching tap UPDATE writes `GREATEST(0, energy-1)`
which stays in range, and the upgrade UPDATE leaves energy and cap untouched. -/
theorem core_ops_preserve_energy_invariant (r : StoredRow) (now cost : ℚ)
    (h : RowInv r) :
    RowInv (applyRegenRow r now) ∧
    (∀ r2, tapUpdate r now = some r2 → RowInv r2) ∧
    RowInv (upgradeUpdate r cost now) := by
  obtain ⟨e, c, ρ, he, hc, hρ, he0, hec, hc0, hρ0⟩ := h
  have hcap : safeNum r.cap 100 = c := by rw [hc]; simp [safeNum, if_pos hc0]
  have hreg : safeNum r.regen_per_sec 2 = ρ := by rw [hρ]; simp [safeNum, if_pos hρ0]
  refine ⟨?_, ?_, ?_⟩
  · refine ⟨regenEnergy r now, c, ρ, rfl, hc, hρ, ?_, ?_, hc0, hρ0⟩
    · unfold regenEnergy
      rw [hcap, hreg, he]
      refine le_min (le_of_lt hc0) ?_
      simp only [Option.getD]
      exact add_nonneg he0 (mul_nonneg (le_of_lt hρ0) (le_max_left 0 _))
    · unfold regenEnergy
      rw [hcap]
      exact min_le_left _ _
  · intro r2 h2
    simp only [tapUpdate, he] at h2
    by_cases h1 : 1 ≤ e
    · rw [if_pos h1] at h2
      have h3 := Option.some.inj h2
      subst h3
      exact ⟨max 0 (e - 1), c, ρ, rfl, hc, hρ, le_max_left 0 _,
        max_le (le_of_lt hc0) (by linarith), hc0, hρ0⟩
    · rw [if_neg h1] at h2
      exact absurd h2 (by simp)
  · exact ⟨e, c, ρ, he, hc, hρ, he0, hec, hc0, hρ0⟩

/-- A row satisfying the invariant: energy 50, cap 100, regen 2. -/
def c9Row : StoredRow :=
  ⟨some 0, some 1, some 1, some 50, some 100, some 2, some 5⟩

/-- C9 witness: the invariant is preserved concretely through regen and
upgrade at the sample row. -/
theorem core_ops_preserve_energy_invariant_witness :
    RowInv (applyRegenRow c9Row 5) ∧ RowInv (upgradeUpdate c9Row 20 5) :=
  ⟨(core_ops_preserve_energy_invariant c9Row 5 20
      ⟨50, 100, 2, rfl, rfl, rfl, by norm_num, by norm_num, by norm_num, by norm_num⟩).1,
   (core_ops_preserve_energy_invariant c9Row 5 20
      ⟨50, 100, 2, rfl, rfl, rfl, by norm_num, by norm_num, by norm_num, by norm_num⟩).2.2⟩

/- ===== Claim C10: re-authentication never touches game state ===== -/

/-- C10: when the player's row already exists, `ensurePlayer` (the auth
upsert) overwrites only the Player display metadata; the existing game_state
row — tokens, level, tap_power, energy, cap, regen_per_sec, last_update —
is left exactly as stored, because the game_state insert is
`ON CONFLICT DO NOTHING`. -/
theorem ensurePlayer_preserves_game_state (db : Db) (u : TgUser) (now : ℚ)
    (p : PlayerRow) (st : StoredRow)
    (hp : db.players.find? (fun x => x.tg_user_id == u.id) = some p)
    (hs : lookupState db p.id = some st) :
    lookupState (ensurePlayer db u now).1 p.id = some st := by
  obtain ⟨pr, hfind, hpr⟩ : ∃ pr, db.states.find? (fun s => s.1 == p.id) = some pr ∧
      pr.2 = st := by
    unfold lookupState at hs
    cases hfind : db.states.find? (fun s => s.1 == p.id) with
    | none => rw [hfind] at hs; exact absurd hs (by simp)
    | some pr => rw [hfind] at hs; exact ⟨pr, rfl, by simpa using hs⟩
  unfold ensurePlayer upsertPlayer
  rw [hp]
  show lookupState (insertStateIfAbsent
    { db with players := db.players.map (fun x => if x.tg_user_id == u.id then _ else x) }
    p.id now) p.id = some st
  unfold insertStateIfAbsent
  rw [show ({ db with players := db.players.map (fun x =>
        if x.tg_user_id == u.id then
          { p with username := u.username, first_name := u.first_name,
                   last_name := u.last_name, photo_url := u.photo_url } else x) } : Db).states
      = db.states from rfl, hfind]
  unfold lookupState
  rw [show ({ db with players := db.players.map (fun x =>
        if x.tg_user_id == u.id then
          { p with username := u.username, first_name := u.first_name,
                   last_name := u.last_name, photo_url := u.photo_url } else x) } : Db).states
      = db.states from rfl, hfind]
  simp [hpr]

/-- A one-player database for the C10 witness. -/
def c10Db : Db :=
  { players := [⟨7, 42, some "alice", none, none, none⟩],
    states := [(7, c9Row)],
    nextId := 8 }

/-- The re-authenticating user for the C10 witness. -/
def c10User : TgUser := ⟨42, some "alice2", some "A", none, none⟩

/-- C10 witness: re-authentication at the concrete database leaves the
stored game_state row intact. -/
theorem ensurePlayer_preserves_game_state_witness :
    lookupState (ensurePlayer c10Db c10User 99).1 7 = some c9Row :=
  ensurePlayer_preserves_game_state c10Db c10User 99
    ⟨7, 42, some "alice", none, none, none⟩ c9Row (by with_unfolding_all rfl)
    (by with_unfolding_all rfl)

/- ===== Claim C1: signature verification ===== -/

/-- Characterization of acceptance: the verifier accepts exactly when the
`hash` field carries the hex HMAC keyed by
`HMAC_SHA256(key = "WebAppData", message = sharedSecret)`. -/
lemma acceptsInitData_iff_hash (fields : List (String × String)) (token : String) :
    acceptsInitData fields token = true ↔
      lookupField fields "hash" =
        some (hexOfBytes (hmacSha256 (hmacSha256 (strBytes "WebAppData") (strBytes token))
          (strBytes (canonicalString fields)))) := by
  rcases fields with _ | ⟨kv, rest⟩
  · simp [acceptsInitData, validateInitData, lookupField]
  · have hne : (kv :: rest).isEmpty = false := rfl
    cases hh : lookupField (kv :: rest) "hash" with
    | none => simp [acceptsInitData, validateInitData, hne, hh]
    | some hv =>
      by_cases heq : hexOfBytes (hmacSha256 (hmacSha256 (strBytes "WebAppData") (strBytes token))
          (strBytes (canonicalString (kv :: rest)))) = hv
      · simp [acceptsInitData, validateInitData, hne, hh, heq]
      · simp only [acceptsInitData, validateInitData, hne, Bool.false_eq_true, if_false, hh, heq,
          if_neg heq]
        constructor
        · intro hcontra
          exact absurd hcontra (by simp)
        · intro hcontra
          exact absurd (Option.some.inj hcontra) (fun h => heq h.symm)

/-- C1 amended: the verifier accepts a parsed credential blob exactly
when its `hash` field equals the lowercase-hex HMAC-SHA256 of the canonical
sorted `key=value` string (hash excluded), keyed by
`secret = HMAC_SHA256(key = "WebAppData", message = sharedSecret)` — i.e.
the domain-separation constant is the HMAC key and the shared secret is the
message, the reverse of the claimed roles. -/
theorem validateInitData_accepts_iff (fields : List (String × String)) (token : String) :
    acceptsInitData fields token = true ↔
      lookupField fields "hash" =
        some (hexOfBytes (hmacSha256 (hmacSha256 (strBytes "WebAppData") (strBytes token))
          (strBytes (canonicalString fields)))) :=
  acceptsInitData_iff_hash fields token

/-- The shared secret (bot token) of the C1 counterexample. -/
def c1Token : String := "tok"

/-- The hex HMAC computed with the claim's key order
(`secret = HMAC_SHA256(key = sharedSecret, message = "WebAppData")`) over the
canonical string `a=1` of the counterexample blob. -/
def c1SpecHash : String := "bb174980d25b064905cfdce79c9a087939a5c79cc42ebd5a4e3490b03ce6aedc"

/-- The counterexample blob: one data field and a `hash` field carrying the
spec-order HMAC. -/
def c1Fields : List (String × String) := [("a", "1"), ("hash", c1SpecHash)]

set_option maxHeartbeats 4000000 in
/-- Evaluation of the spec-order chain of the C1 counterexample:
`HMAC(key = HMAC(key = token, message = "WebAppData"), message = "a=1")`,
hex-encoded, is `c1SpecHash` (a single kernel computation). -/
lemma c1_spec_chain :
    hexOfBytes (hmacSha256 (hmacSha256 (strBytes c1Token) (strBytes "WebAppData"))
      (strBytes "a=1")) = c1SpecHash := rfl

set_option maxHeartbeats 4000000 in
/-- Evaluation of the code-order chain of the C1 counterexample:
`HMAC(key = HMAC(key = "WebAppData", message = token), message = "a=1")`,
hex-encoded (a single kernel computation). -/
lemma c1_code_chain :
    hexOfBytes (hmacSha256 (hmacSha256 (strBytes "WebAppData") (strBytes c1Token))
      (strBytes "a=1")) =
      "2e39ac19a7c28747861eaaaeb7c7343608da55586617fcfbf56283285ecf18b2" := rfl

/-- C1 counterexample: a blob signed with the key derivation exactly as the
claim words it (shared secret as HMAC key, "WebAppData" as message) is
accepted by the claimed rule but rejected by the code — `validateInitData`
derives the key the other way around (`createHmac("sha256", "WebAppData")
.update(botToken)`), so the two acceptance sets differ. -/
theorem validateInitData_spec_key_order_refuted :
    specClaimedAccept c1Fields c1Token = true ∧
    acceptsInitData c1Fields c1Token = false := by
  have hcanon : canonicalString c1Fields = "a=1" := rfl
  constructor
  · show (c1SpecHash == hexOfBytes (hmacSha256
        (hmacSha256 (strBytes c1Token) (strBytes "WebAppData"))
        (strBytes (canonicalString c1Fields)))) = true
    rw [hcanon, c1_spec_chain]
    exact beq_self_eq_true c1SpecHash
  · have h := acceptsInitData_iff_hash c1Fields c1Token
    rw [hcanon, c1_code_chain,
        show lookupField c1Fields "hash" = some c1SpecHash from rfl] at h
    have hne : ¬ (some c1SpecHash =
        some ("2e39ac19a7c28747861eaaaeb7c7343608da55586617fcfbf56283285ecf18b2" : String)) := by
      decide
    cases hb : acceptsInitData c1Fields c1Token
    · rfl
    · exact absurd (h.mp hb) hne
